import Mathlib

/-!
Verification of the Wi-Fi distance-study campaign driver
(`src/wifi_simulation.cc`): the flow-metrics aggregator, the CSV result
sink, and the per-distance campaign loop, shallowly embedded over ℚ,
ℕ and lists.  Doubles in the source are modelled as rationals; the
`std::fixed << std::setprecision(2)` rendering of a value is modelled by
rounding to the nearest hundredth and printing two fractional digits.
-/

namespace WifiSim

/-- One `FlowMonitor::FlowStats` record as the aggregation loop reads it:
`delaySum.GetSeconds()`, `rxPackets`, `txPackets`, `lostPackets`. -/
structure FlowStats where
  delaySum : ℚ
  rxPackets : ℕ
  txPackets : ℕ
  lostPackets : ℕ
  deriving DecidableEq

/-- The four running accumulators of the metrics loop:
`sumDelaySec`, `rxPackets`, `txPackets`, `lostPackets`. -/
structure Totals where
  sumDelaySec : ℚ
  rxPackets : ℕ
  txPackets : ℕ
  lostPackets : ℕ
  deriving DecidableEq

/-- One iteration of the `for (const auto &kv : stats)` loop body:
each counter is increased by the current record's field. -/
def accStep (acc : Totals) (st : FlowStats) : Totals :=
  ⟨acc.sumDelaySec + st.delaySum, acc.rxPackets + st.rxPackets,
   acc.txPackets + st.txPackets, acc.lostPackets + st.lostPackets⟩

/-- The whole accumulation loop, starting from all-zero accumulators. -/
def foldStats (stats : List FlowStats) : Totals :=
  stats.foldl accStep ⟨0, 0, 0, 0⟩

/-- `avgDelayMs = (rxPackets > 0) ? (sumDelaySec / rxPackets * 1000.0) : 0.0`. -/
def avgDelayMs (stats : List FlowStats) : ℚ :=
  let t := foldStats stats
  if 0 < t.rxPackets then t.sumDelaySec / (t.rxPackets : ℚ) * 1000 else 0

/-- `lossPct = (txPackets > 0) ? (100.0 * lostPackets / txPackets) : 0.0`. -/
def lossPct (stats : List FlowStats) : ℚ :=
  let t := foldStats stats
  if 0 < t.txPackets then 100 * (t.lostPackets : ℚ) / (t.txPackets : ℚ) else 0

/-- `uint64_t totalRx = 0; if (sink) totalRx = sink->GetTotalRx();` —
the sink pointer is `none` when `DynamicCast<PacketSink>` fails. -/
def totalRxOf : Option ℕ → ℕ
  | some v => v
  | none => 0

/-- `throughputMbps = (totalRx * 8.0) / (duration * 1e6)` with
`duration = appStop - appStart`. -/
def throughputMbps (totalRx : ℕ) (appStart appStop : ℚ) : ℚ :=
  ((totalRx : ℚ) * 8) / ((appStop - appStart) * 1000000)

/-- The scenario-level metric triple (throughput, average delay, loss). -/
def aggregateResult (totalRx : ℕ) (start stop : ℚ) (stats : List FlowStats) :
    ℚ × ℚ × ℚ :=
  (throughputMbps totalRx start stop, avgDelayMs stats, lossPct stats)

/-- `double appStart = 1.0;` -/
def appStart : ℚ := 1

/-- `double appStop = 10.0;` -/
def appStop : ℚ := 10

/-- `double simStop = 12.0;` -/
def simStop : ℚ := 12

/-- One BulkSend application as configured per station:
start `appStart + 0.1 * i`, stop `appStop`, `MaxBytes = 0`,
`SendSize = 1448`. -/
structure SenderApp where
  startTime : ℚ
  stopTime : ℚ
  maxBytes : ℕ
  sendSize : ℕ
  deriving DecidableEq

/-- The sender-installation loop `for (i = 0; i < wifiStaNodes.GetN(); ++i)`,
generalised over the station count. -/
def trafficPlan (n : ℕ) (start stop : ℚ) : List SenderApp :=
  (List.range n).map (fun i => ⟨start + (1 / 10) * (i : ℚ), stop, 0, 1448⟩)

/-- Decimal digit characters of a natural number, most significant first. -/
def natChars (n : ℕ) : List Char :=
  if _h : n < 10 then [Nat.digitChar n]
  else natChars (n / 10) ++ [Nat.digitChar (n % 10)]
termination_by n
decreasing_by exact Nat.div_lt_self (by omega) (by omega)

/-- Fixed-point rendering with two fractional digits, as
`std::fixed << std::setprecision(2)` produces: the value rounded to the
nearest hundredth, printed as integer part, a point, and two digits. -/
def fix2 (q : ℚ) : List Char :=
  let n : ℤ := Int.floor (q * 100 + 1 / 2)
  let m : ℕ := n.natAbs
  (if n < 0 then ['-'] else []) ++ natChars (m / 100) ++
    ['.', Nat.digitChar (m % 100 / 10), Nat.digitChar (m % 100 % 10)]

/-- The CSV header line written by `WriteCsvHeaderIfNeeded`. -/
def headerLine : List Char :=
  "distance_m,throughput_mbps,avg_delay_ms,packet_loss_percent\n".toList

/-- One data row: `out << d << "," << throughputMbps << "," << avgDelayMs
<< "," << lossPct << "\n"` under `std::fixed << std::setprecision(2)`. -/
def csvRow (d thr del loss : ℚ) : List Char :=
  fix2 d ++ [','] ++ fix2 thr ++ [','] ++ fix2 del ++ [','] ++ fix2 loss ++ ['\n']

/-- What one engine run exposes to the driver: the packet-sink pointer's
total received bytes (`none` when the application cast fails) and the
flow-monitor records. -/
structure EngineOut where
  sink : Option ℕ
  stats : List FlowStats

/-- The backing CSV store: `none` when the file does not exist, otherwise
the list of lines written so far (each line includes its newline). -/
def Store := Option (List (List Char))

/-- `WriteCsvHeaderIfNeeded`: if the file does not exist, create it with
the header line; otherwise leave it untouched. -/
def WriteCsvHeaderIfNeeded : Option (List (List Char)) → Option (List (List Char))
  | none => some [headerLine]
  | some ls => some ls

/-- One append-mode write of a single line (`std::ios_base::app` creates
the file when missing). -/
def appendLine : Option (List (List Char)) → List Char → Option (List (List Char))
  | none, l => some [l]
  | some ls, l => some (ls ++ [l])

/-- The row written for one distance `d`, with the engine's outputs for
that scenario fed through the aggregator. -/
def scenarioRow (engine : ℚ → EngineOut) (d : ℚ) : List Char :=
  csvRow d (throughputMbps (totalRxOf (engine d).sink) appStart appStop)
    (avgDelayMs (engine d).stats) (lossPct (engine d).stats)

/-- The campaign: write the header if needed, then `for (double d :
distances)` run one scenario and append its row. -/
def runCampaign (engine : ℚ → EngineOut) (ds : List ℚ)
    (store : Option (List (List Char))) : Option (List (List Char)) :=
  ds.foldl (fun st d => appendLine st (scenarioRow engine d))
    (WriteCsvHeaderIfNeeded store)

/-- `std::vector<double> distances = {5.0, 10.0, 20.0, 35.0, 50.0};` -/
def distances : List ℚ := [5, 10, 20, 35, 50]

lemma foldl_accStep (stats : List FlowStats) (a : Totals) :
    stats.foldl accStep a =
      ⟨a.sumDelaySec + (stats.map FlowStats.delaySum).sum,
       a.rxPackets + (stats.map FlowStats.rxPackets).sum,
       a.txPackets + (stats.map FlowStats.txPackets).sum,
       a.lostPackets + (stats.map FlowStats.lostPackets).sum⟩ := by
  induction stats generalizing a with
  | nil => simp
  | cons st rest ih => simp [List.foldl_cons, ih, accStep, add_assoc]

lemma foldStats_eq (stats : List FlowStats) :
    foldStats stats =
      ⟨(stats.map FlowStats.delaySum).sum, (stats.map FlowStats.rxPackets).sum,
       (stats.map FlowStats.txPackets).sum, (stats.map FlowStats.lostPackets).sum⟩ := by
  simpa [foldStats] using foldl_accStep stats ⟨0, 0, 0, 0⟩

lemma avgDelayMs_eq_sums (stats : List FlowStats) :
    avgDelayMs stats =
      if (stats.map FlowStats.rxPackets).sum = 0 then 0
      else (stats.map FlowStats.delaySum).sum /
        ((stats.map FlowStats.rxPackets).sum : ℚ) * 1000 := by
  rcases Nat.eq_zero_or_pos (stats.map FlowStats.rxPackets).sum with h | h
  · simp [avgDelayMs, foldStats_eq, h]
  · simp [avgDelayMs, foldStats_eq, h, Nat.pos_iff_ne_zero.mp h]

lemma lossPct_eq_sums (stats : List FlowStats) :
    lossPct stats =
      if (stats.map FlowStats.txPackets).sum = 0 then 0
      else 100 * ((stats.map FlowStats.lostPackets).sum : ℚ) /
        ((stats.map FlowStats.txPackets).sum : ℚ) := by
  rcases Nat.eq_zero_or_pos (stats.map FlowStats.txPackets).sum with h | h
  · simp [lossPct, foldStats_eq, h]
  · simp [lossPct, foldStats_eq, h, Nat.pos_iff_ne_zero.mp h]

/-- C2: the average-delay metric is the total delay over all FlowRecords
divided by the total received-packet count, converted to milliseconds,
and is 0 when the total received-packet count is 0 (no division error:
the 0 branch is taken before any division). -/
theorem avgDelay_spec (stats : List FlowStats) :
    avgDelayMs stats =
      (if (stats.map FlowStats.rxPackets).sum = 0 then 0
       else (stats.map FlowStats.delaySum).sum /
         ((stats.map FlowStats.rxPackets).sum : ℚ) * 1000) ∧
    avgDelayMs [⟨3, 0, 5, 1⟩] = 0 := by
  refine ⟨avgDelayMs_eq_sums stats, ?_⟩
  simp [avgDelayMs, foldStats, accStep]

/-- C3: the loss metric is `100 * (total lostPackets) / (total txPackets)`,
0 when the total txPackets is 0; with totals `txPackets = 100` and
`lostPackets = 5` it is exactly 5. -/
theorem lossPct_spec (stats : List FlowStats) :
    lossPct stats =
      (if (stats.map FlowStats.txPackets).sum = 0 then 0
       else 100 * ((stats.map FlowStats.lostPackets).sum : ℚ) /
         ((stats.map FlowStats.txPackets).sum : ℚ)) ∧
    lossPct [⟨0, 30, 60, 3⟩, ⟨0, 35, 40, 2⟩] = 5 ∧
    lossPct [] = 0 := by
  refine ⟨lossPct_eq_sums stats, ?_, ?_⟩
  · norm_num [lossPct, foldStats, accStep]
  · simp [lossPct, foldStats]

/-- C1: the throughput metric is `receivedBytes * 8 / ((appStop - appStart)
* 1000000)`; whenever `appStop > appStart` the divisor is nonzero, and at
the fixed engine output `receivedBytes = 1250000`, `appStart = 1`,
`appStop = 10` the value is `1250000 * 8 / (9 * 10^6)`. -/
theorem throughput_formula (rx : ℕ) (start stop : ℚ) (h : start < stop) :
    (stop - start) * 1000000 ≠ 0 ∧
    throughputMbps rx start stop = (rx : ℚ) * 8 / ((stop - start) * 1000000) ∧
    throughputMbps 1250000 appStart appStop = 1250000 * 8 / (9 * 1000000) := by
  refine ⟨?_, rfl, ?_⟩
  · exact mul_ne_zero (ne_of_gt (sub_pos.mpr h)) (by norm_num)
  · norm_num [throughputMbps, appStart, appStop]

/-- Witness for C1 at `rx = 1250000`, `start = 1`, `stop = 10`. -/
theorem throughput_formula_witness :
    (1 : ℚ) < 10 ∧
    (((10 : ℚ) - 1) * 1000000 ≠ 0 ∧
     throughputMbps 1250000 1 10 = (1250000 : ℚ) * 8 / (((10 : ℚ) - 1) * 1000000) ∧
     throughputMbps 1250000 appStart appStop = 1250000 * 8 / (9 * 1000000)) :=
  ⟨by norm_num, throughput_formula 1250000 1 10 (by norm_num)⟩

/-- C6: the aggregated metric triple is invariant under permutation of the
FlowRecord collection. -/
theorem aggregate_perm_invariant (l1 l2 : List FlowStats) (h : l1.Perm l2)
    (rx : ℕ) (start stop : ℚ) :
    aggregateResult rx start stop l1 = aggregateResult rx start stop l2 := by
  have hrx : (l1.map FlowStats.rxPackets).sum = (l2.map FlowStats.rxPackets).sum :=
    (h.map FlowStats.rxPackets).sum_eq
  have htx : (l1.map FlowStats.txPackets).sum = (l2.map FlowStats.txPackets).sum :=
    (h.map FlowStats.txPackets).sum_eq
  have hlost : (l1.map FlowStats.lostPackets).sum = (l2.map FlowStats.lostPackets).sum :=
    (h.map FlowStats.lostPackets).sum_eq
  have hdel : (l1.map FlowStats.delaySum).sum = (l2.map FlowStats.delaySum).sum :=
    (h.map FlowStats.delaySum).sum_eq
  unfold aggregateResult
  rw [avgDelayMs_eq_sums, avgDelayMs_eq_sums, lossPct_eq_sums, lossPct_eq_sums,
    hrx, htx, hlost, hdel]

/-- Witness for C6 on a two-record swap. -/
theorem aggregate_perm_invariant_witness :
    ([⟨1, 2, 3, 4⟩, ⟨5, 6, 7, 8⟩] : List FlowStats).Perm
      [⟨5, 6, 7, 8⟩, ⟨1, 2, 3, 4⟩] ∧
    aggregateResult 9 1 10 [⟨1, 2, 3, 4⟩, ⟨5, 6, 7, 8⟩] =
      aggregateResult 9 1 10 [⟨5, 6, 7, 8⟩, ⟨1, 2, 3, 4⟩] :=
  ⟨List.Perm.swap _ _ _,
   aggregate_perm_invariant _ _ (List.Perm.swap _ _ _) 9 1 10⟩

/-- Counterexample to C7 as stated: a single FlowRecord with non-negative
counters and delay sum (`delaySum = 0`, `rxPackets = 0`, `txPackets = 1`,
`lostPackets = 2`) yields a loss percentage of 200, violating
`lossPercent ≤ 100`. -/
theorem lossPct_gt100_cex :
    lossPct [⟨0, 0, 1, 2⟩] = 200 ∧ ¬ lossPct [⟨0, 0, 1, 2⟩] ≤ 100 := by
  constructor
  · norm_num [lossPct, foldStats, accStep]
  · norm_num [lossPct, foldStats, accStep]

/-- C7 (amended): with non-negative delay sums AND total lostPackets not
exceeding total txPackets, every row has `throughputMbps ≥ 0` (given
`appStart < appStop`), `avgDelayMs ≥ 0` and `0 ≤ lossPercent ≤ 100`. -/
theorem metrics_bounds (stats : List FlowStats) (rx : ℕ) (start stop : ℚ)
    (hts : start < stop)
    (hd : ∀ st ∈ stats, 0 ≤ st.delaySum)
    (hlt : (stats.map FlowStats.lostPackets).sum ≤ (stats.map FlowStats.txPackets).sum) :
    0 ≤ throughputMbps rx start stop ∧ 0 ≤ avgDelayMs stats ∧
    0 ≤ lossPct stats ∧ lossPct stats ≤ 100 := by
  have hdur : (0 : ℚ) < (stop - start) * 1000000 :=
    mul_pos (sub_pos.mpr hts) (by norm_num)
  have hdsum : (0 : ℚ) ≤ (stats.map FlowStats.delaySum).sum := by
    apply List.sum_nonneg
    intro x hx
    rcases List.mem_map.mp hx with ⟨st, hst, rfl⟩
    exact hd st hst
  refine ⟨?_, ?_, ?_, ?_⟩
  · exact div_nonneg (by positivity) (le_of_lt hdur)
  · rw [avgDelayMs_eq_sums]
    rcases Nat.eq_zero_or_pos (stats.map FlowStats.rxPackets).sum with h0 | h0
    · simp [h0]
    · rw [if_neg (Nat.pos_iff_ne_zero.mp h0)]
      have : (0 : ℚ) < ((stats.map FlowStats.rxPackets).sum : ℚ) := by
        exact_mod_cast h0
      positivity
  · rw [lossPct_eq_sums]
    rcases Nat.eq_zero_or_pos (stats.map FlowStats.txPackets).sum with h0 | h0
    · simp [h0]
    · rw [if_neg (Nat.pos_iff_ne_zero.mp h0)]
      positivity
  · rw [lossPct_eq_sums]
    rcases Nat.eq_zero_or_pos (stats.map FlowStats.txPackets).sum with h0 | h0
    · simp [h0]
    · rw [if_neg (Nat.pos_iff_ne_zero.mp h0)]
      have htxq : (0 : ℚ) < ((stats.map FlowStats.txPackets).sum : ℚ) := by
        exact_mod_cast h0
      rw [mul_div_assoc]
      have hle : ((stats.map FlowStats.lostPackets).sum : ℚ) /
          ((stats.map FlowStats.txPackets).sum : ℚ) ≤ 1 :=
        (div_le_one htxq).mpr (by exact_mod_cast hlt)
      calc 100 * (((stats.map FlowStats.lostPackets).sum : ℚ) /
            ((stats.map FlowStats.txPackets).sum : ℚ))
          ≤ 100 * 1 := by
            exact mul_le_mul_of_nonneg_left hle (by norm_num)
        _ = 100 := by norm_num

/-- Witness for C7 (amended) on one record with delay 1, rx 2, tx 4, lost 1. -/
theorem metrics_bounds_witness :
    (1 : ℚ) < 10 ∧
    (∀ st ∈ ([⟨1, 2, 4, 1⟩] : List FlowStats), 0 ≤ st.delaySum) ∧
    (([⟨1, 2, 4, 1⟩] : List FlowStats).map FlowStats.lostPackets).sum ≤
      (([⟨1, 2, 4, 1⟩] : List FlowStats).map FlowStats.txPackets).sum ∧
    (0 ≤ throughputMbps 5 1 10 ∧ 0 ≤ avgDelayMs [⟨1, 2, 4, 1⟩] ∧
     0 ≤ lossPct [⟨1, 2, 4, 1⟩] ∧ lossPct [⟨1, 2, 4, 1⟩] ≤ 100) :=
  ⟨by norm_num, by decide, by decide,
   metrics_bounds [⟨1, 2, 4, 1⟩] 5 1 10 (by norm_num) (by decide) (by decide)⟩

lemma foldl_appendLine (engine : ℚ → EngineOut) (ds : List ℚ)
    (ls : List (List Char)) :
    ds.foldl (fun st d => appendLine st (scenarioRow engine d)) (some ls) =
      some (ls ++ ds.map (scenarioRow engine)) := by
  induction ds generalizing ls with
  | nil => simp
  | cons d rest ih =>
      have h1 : appendLine (some ls) (scenarioRow engine d) =
          some (ls ++ [scenarioRow engine d]) := rfl
      rw [List.foldl_cons, h1, ih]
      simp

lemma runCampaign_none (engine : ℚ → EngineOut) (ds : List ℚ) :
    runCampaign engine ds none = some (headerLine :: ds.map (scenarioRow engine)) := by
  simpa [runCampaign, WriteCsvHeaderIfNeeded] using
    foldl_appendLine engine ds [headerLine]

lemma runCampaign_some (engine : ℚ → EngineOut) (ds : List ℚ)
    (ls : List (List Char)) :
    runCampaign engine ds (some ls) = some (ls ++ ds.map (scenarioRow engine)) := by
  simpa [runCampaign, WriteCsvHeaderIfNeeded] using foldl_appendLine engine ds ls

lemma digitChar_isDigit (k : ℕ) (h : k < 10) : (Nat.digitChar k).isDigit := by
  interval_cases k <;> decide

lemma natChars_digits (n : ℕ) : ∀ c ∈ natChars n, c.isDigit := by
  induction n using Nat.strong_induction_on with
  | _ n ih =>
    intro c hc
    rw [natChars] at hc
    by_cases h : n < 10
    · rw [dif_pos h] at hc
      rcases List.mem_singleton.mp hc with rfl
      exact digitChar_isDigit n h
    · rw [dif_neg h] at hc
      rcases List.mem_append.mp hc with hc | hc
      · exact ih (n / 10) (Nat.div_lt_self (by omega) (by omega)) c hc
      · rcases List.mem_singleton.mp hc with rfl
        exact digitChar_isDigit _ (Nat.mod_lt _ (by omega))

lemma fix2_structure (q : ℚ) :
    ∃ ip c1 c2, fix2 q = ip ++ ['.', c1, c2] ∧ c1.isDigit ∧ c2.isDigit ∧
      ('.' : Char) ∉ ip := by
  refine ⟨(if Int.floor (q * 100 + 1 / 2) < 0 then ['-'] else []) ++
    natChars ((Int.floor (q * 100 + 1 / 2)).natAbs / 100),
    Nat.digitChar ((Int.floor (q * 100 + 1 / 2)).natAbs % 100 / 10),
    Nat.digitChar ((Int.floor (q * 100 + 1 / 2)).natAbs % 100 % 10), ?_, ?_, ?_, ?_⟩
  · simp [fix2]
  · exact digitChar_isDigit _ (by omega)
  · exact digitChar_isDigit _ (by omega)
  · intro hmem
    rcases List.mem_append.mp hmem with hmem | hmem
    · rcases lt_or_le (Int.floor (q * 100 + 1 / 2)) 0 with hneg | hneg
      · rw [if_pos hneg] at hmem
        exact absurd (List.mem_singleton.mp hmem) (by decide)
      · rw [if_neg (not_lt.mpr hneg)] at hmem
        exact absurd hmem (List.not_mem_nil _)
    · have := natChars_digits _ _ hmem
      exact absurd this (by decide)

lemma dot_mem_fix2 (q : ℚ) : ('.' : Char) ∈ fix2 q := by
  simp [fix2]

lemma dot_not_mem_headerLine : ('.' : Char) ∉ headerLine := by decide

lemma scenarioRow_ne_headerLine (engine : ℚ → EngineOut) (d : ℚ) :
    scenarioRow engine d ≠ headerLine := by
  intro h
  have hdot : ('.' : Char) ∈ scenarioRow engine d := by
    simp [scenarioRow, csvRow, List.mem_append, dot_mem_fix2]
  rw [h] at hdot
  exact dot_not_mem_headerLine hdot

/-- C4: running the campaign against a fresh store yields the header
followed by exactly one data row per distance, in the order of the input
distances. -/
theorem campaign_rows (engine : ℚ → EngineOut) (ds : List ℚ) :
    runCampaign engine ds none =
      some (headerLine :: ds.map (scenarioRow engine)) ∧
    (ds.map (scenarioRow engine)).length = ds.length := by
  exact ⟨runCampaign_none engine ds, List.length_map ds (scenarioRow engine)⟩

/-- C5: header initialization is idempotent (a second
`WriteCsvHeaderIfNeeded` never rewrites or duplicates the header), and
running the whole campaign twice against the same store yields exactly
one header line and `2 * N` data rows. -/
theorem header_idempotent (engine : ℚ → EngineOut) (ds : List ℚ) :
    (∀ st, WriteCsvHeaderIfNeeded (WriteCsvHeaderIfNeeded st) =
      WriteCsvHeaderIfNeeded st) ∧
    runCampaign engine ds (runCampaign engine ds none) =
      some (headerLine ::
        (ds.map (scenarioRow engine) ++ ds.map (scenarioRow engine))) ∧
    (headerLine ::
      (ds.map (scenarioRow engine) ++ ds.map (scenarioRow engine))).count
        headerLine = 1 ∧
    (ds.map (scenarioRow engine) ++ ds.map (scenarioRow engine)).length =
      2 * ds.length := by
  refine ⟨?_, ?_, ?_, ?_⟩
  · intro st
    cases st <;> rfl
  · rw [runCampaign_none, runCampaign_some]
    simp
  · rw [List.count_cons_self]
    have hz : (ds.map (scenarioRow engine) ++ ds.map (scenarioRow engine)).count
        headerLine = 0 := by
      apply List.count_eq_zero.mpr
      intro hmem
      rcases List.mem_append.mp hmem with hmem | hmem <;>
        · rcases List.mem_map.mp hmem with ⟨d, _, hrow⟩
          exact scenarioRow_ne_headerLine engine d hrow
    omega
  · simp [List.length_append, List.length_map]
    ring

/-- C8: each data row is the two-fractional-digit fixed-point rendering of
the four fields, comma-separated in the order distance, throughput, delay,
loss, terminated by a newline; the header line is exactly
`distance_m,throughput_mbps,avg_delay_ms,packet_loss_percent`. -/
theorem csv_row_format :
    (∀ d thr del loss : ℚ,
      csvRow d thr del loss =
        List.intercalate [','] [fix2 d, fix2 thr, fix2 del, fix2 loss] ++ ['\n'] ∧
      (csvRow d thr del loss).getLast? = some '\n') ∧
    (∀ q : ℚ, ∃ ip c1 c2, fix2 q = ip ++ ['.', c1, c2] ∧ c1.isDigit ∧
      c2.isDigit ∧ ('.' : Char) ∉ ip) ∧
    headerLine = "distance_m,throughput_mbps,avg_delay_ms,packet_loss_percent\n".toList := by
  refine ⟨?_, fix2_structure, rfl⟩
  intro d thr del loss
  constructor
  · simp [csvRow, List.intercalate]
  · unfold csvRow
    rw [show fix2 d ++ [','] ++ fix2 thr ++ [','] ++ fix2 del ++ [','] ++
        fix2 loss ++ ['\n'] =
      (fix2 d ++ [','] ++ fix2 thr ++ [','] ++ fix2 del ++ [','] ++ fix2 loss) ++
        ['\n'] from rfl]
    exact List.getLast?_concat _

/-- C9: a zero-station scenario has an empty traffic plan, and an engine
run reporting no received bytes and no flows still yields the all-zero
metric triple rather than failing. -/
theorem zero_station_result :
    (∀ start stop : ℚ, trafficPlan 0 start stop = []) ∧
    aggregateResult 0 appStart appStop [] = (0, 0, 0) ∧
    aggregateResult (totalRxOf none) appStart appStop [] = (0, 0, 0) := by
  refine ⟨?_, ?_, ?_⟩
  · intro start stop
    simp [trafficPlan]
  · simp [aggregateResult, throughputMbps, avgDelayMs, lossPct, foldStats]
  · simp [aggregateResult, throughputMbps, avgDelayMs, lossPct, foldStats, totalRxOf]

/-- C10: when the application-to-sink cast fails the received-byte total
stays at its initialised value 0, the computed throughput is 0 for any
timing, and the row field is rendered as `0.00`. -/
theorem null_sink_zero_throughput :
    totalRxOf none = 0 ∧
    (∀ start stop : ℚ, throughputMbps (totalRxOf none) start stop = 0) ∧
    fix2 (throughputMbps (totalRxOf none) appStart appStop) =
      ['0', '.', '0', '0'] := by
  refine ⟨rfl, ?_, ?_⟩
  · intro start stop
    simp [totalRxOf, throughputMbps]
  · have h0 : throughputMbps (totalRxOf none) appStart appStop = 0 := by
      simp [totalRxOf, throughputMbps]
    have h1 : Int.floor ((2 : ℚ)⁻¹) = 0 := by norm_num
    have h2 : natChars 0 = ['0'] := by
      rw [natChars]
      norm_num
      decide
    rw [h0]
    simp [fix2, h1, h2, Nat.digitChar]

end WifiSim
